import Mathlib

/-!
Shallow embedding of the source-resolution engine of player-nekonode-site
(src/index.js, src/lib/streamWish.js, and the revision in src/unnamed/part_000).

JavaScript string primitives (String.prototype.split with a string separator,
String.prototype.includes, the two regex scans used by the code, and
String.prototype.replace with a string pattern) are modelled by executable
functions over List Char.  Network fetches, the Redis cache and the cheerio
DOM query are oracle inputs: a handler or extractor is a pure function of the
request data, the cache contents and the fetch outcomes.
-/

namespace NekoNode

/-- Index of the first occurrence of needle in hay (JS String.indexOf), none
when absent.  An empty needle matches at index 0, as in JS. -/
def findSubIdx (needle : List Char) : List Char → Option Nat
  | [] => if needle.isEmpty then some 0 else none
  | c :: rest =>
    if needle.isPrefixOf (c :: rest) then some 0
    else (findSubIdx needle rest).map (· + 1)

/-- JS String.prototype.includes for the needle/haystack pair. -/
def containsSub (needle hay : String) : Bool :=
  (findSubIdx needle.data hay.data).isSome

/-- JS String.prototype.split with a nonempty string separator, on char lists.
The fuel argument starts at the length of the subject string; every recursive
step removes at least one character (the separator is nonempty at every call
site), so the fuel never runs out before the subject is exhausted. -/
def jsSplitAux (sep : List Char) : Nat → List Char → List (List Char)
  | 0, s => [s]
  | fuel + 1, s =>
    match findSubIdx sep s with
    | none => [s]
    | some i => s.take i :: jsSplitAux sep fuel (s.drop (i + sep.length))

/-- JS s.split(sep) for a nonempty separator. -/
def jsSplit (sep s : String) : List String :=
  (jsSplitAux sep.data s.data.length s.data).map String.mk

/-- JS s.split(sep)[0]: the portion of s before the first occurrence of sep,
or all of s when sep does not occur. -/
def splitHead (sep s : String) : String :=
  (jsSplit sep s).headD s

/-- JS list[1] used in string concatenation: the element at index 1, or the
string "undefined" (JS coerces the undefined value to that text when it is
concatenated to a string). -/
def jsGet1 (l : List String) : String :=
  match l with
  | _ :: x :: _ => x
  | _ => "undefined"

/-- JS truthiness of a string: every string except the empty one. -/
def jsTruthy (s : String) : Bool := s != ""

/-- JS s.replace(pat, rep) with a string pattern: replaces only the first
occurrence. -/
def jsReplaceFirst (pat rep s : String) : String :=
  match findSubIdx pat.data s.data with
  | none => s
  | some i => String.mk (s.data.take i ++ rep.data ++ s.data.drop (i + pat.data.length))

/-- One attempted match of the regex file:\s*"([^"]+)" at the head of s
(src/lib/streamWish.js line 22).  On success, returns the captured URL and
the remainder of the input after the closing quote. -/
def matchFileRefAt (s : List Char) : Option (List Char × List Char) :=
  if ("file:".data).isPrefixOf s then
    match (s.drop 5).dropWhile (fun c => c.isWhitespace) with
    | '"' :: r2 =>
      match r2.takeWhile (fun c => c != '"'), r2.dropWhile (fun c => c != '"') with
      | url :: urls, '"' :: after => some (url :: urls, after)
      | _, _ => none
    | _ => none
  else none

/-- Global scan of the regex file:\s*"([^"]+)" (JS match with the g flag):
at each position try a match; on success continue after it, otherwise advance
one character.  Fuel equals the input length; a successful match consumes at
least one character, so the fuel suffices. -/
def scanFileRefsAux : Nat → List Char → List (List Char)
  | 0, _ => []
  | _ + 1, [] => []
  | fuel + 1, c :: rest =>
    match matchFileRefAt (c :: rest) with
    | some (url, after) => url :: scanFileRefsAux fuel after
    | none => scanFileRefsAux fuel rest

/-- The cleaned-up link list of src/lib/streamWish.js lines 22-28: the URLs
captured by the global regex match (the code strips the file:-prefix and the
quotes from each raw match, leaving exactly the captured URL). -/
def scanFileRefs (page : String) : List String :=
  (scanFileRefsAux page.data.length page.data).map String.mk

/-- First match of the regex RESOLUTION=\d+x(\d+) (src/lib/streamWish.js
line 61): the captured digits after the x, or none. -/
def matchResolutionHeightAux : List Char → Option (List Char)
  | [] => none
  | c :: rest =>
    if ("RESOLUTION=".data).isPrefixOf (c :: rest) then
      match ((c :: rest).drop 11).takeWhile Char.isDigit,
            ((c :: rest).drop 11).dropWhile Char.isDigit with
      | _ :: _, 'x' :: r3 =>
        match r3.takeWhile Char.isDigit with
        | h :: hs => some (h :: hs)
        | [] => matchResolutionHeightAux rest
      | _, _ => matchResolutionHeightAux rest
    else matchResolutionHeightAux rest

/-- String wrapper for the RESOLUTION regex capture. -/
def matchResolutionHeight (s : String) : Option String :=
  (matchResolutionHeightAux s.data).map String.mk

/-- A candidate video source as built by the extractor
(src/lib/streamWish.js lines 38-42 and 64-68). -/
structure VideoSource where
  url : String
  quality : String
  isM3U8 : Bool
deriving DecidableEq, Repr

/-- Outcome of one HTTP fetch (the axios collaborator): the response body, or
a thrown transport/timeout/non-2xx error. -/
inductive FetchResult
  | ok (body : String)
  | err (msg : String)
deriving DecidableEq, Repr

/-- The link-processing loop of src/lib/streamWish.js lines 31-44: skip links
containing .jpg or .png; tag the first pushed link default and every later
one backup (lastLink is only updated for pushed links); record whether the
link text contains .m3u8.  The flag records whether some link was already
pushed (lastLink is not null). -/
def processLinks : Bool → List String → List VideoSource
  | _, [] => []
  | pushed, link :: rest =>
    if containsSub ".jpg" link || containsSub ".png" link then
      processLinks pushed rest
    else
      { url := link,
        quality := if pushed then "backup" else "default",
        isM3U8 := containsSub ".m3u8" link } :: processLinks true rest

/-- Manifest expansion, src/lib/streamWish.js lines 56-71: when the fetched
manifest body contains EXTM3U, split it on the variant marker and, for every
piece containing m3u8 (including the piece before the first marker), push one
entry whose url is the part of the manifest link before the literal
master.m3u8 concatenated with the second line of the piece (the string
undefined when there is no second line, as in JS), whose quality is the
captured RESOLUTION height or unknown, and whose isM3U8 flag records whether
that url contains .m3u8. -/
def expandManifest (m3u8Link body : String) : List VideoSource :=
  if containsSub "EXTM3U" body then
    (jsSplit "#EXT-X-STREAM-INF:" body).filterMap fun video =>
      if containsSub "m3u8" video then
        let url := splitHead "master.m3u8" m3u8Link ++ jsGet1 (jsSplit "\n" video)
        some { url := url,
               quality := (matchResolutionHeight video).getD "unknown",
               isM3U8 := containsSub ".m3u8" url }
      else none
  else []

/-- StreamWish.extract (src/lib/streamWish.js lines 13-79) as a function of
the instance state this.sources, the outcome of the embed-page fetch and an
oracle for the manifest fetch.  Returns the call result (the thrown error or
the returned array) together with the new instance state; the code pushes
into this.sources and returns that same array, so a successful result is the
whole accumulated state. -/
def extract (sources : List VideoSource) (pageFetch : FetchResult)
    (manifestFetch : String → FetchResult) :
    Except String (List VideoSource) × List VideoSource :=
  match pageFetch with
  | .err m => (.error m, sources)
  | .ok data =>
    match scanFileRefs data with
    | [] => (.error "No video links found", sources)
    | link :: links =>
      let s1 := sources ++ processLinks false (link :: links)
      match s1.find? (fun s => s.isM3U8) with
      | none => (.ok s1, s1)
      | some src =>
        match manifestFetch src.url with
        | .err m => (.error m, s1)
        | .ok body =>
          let s2 := s1 ++ expandManifest src.url body
          (.ok s2, s2)

/-- StreamWish.getEpisodeSources (src/lib/streamWish.js lines 81-100) as a
function of the listing fetch-and-parse outcome (the list of truthy
data-video attributes found by the cheerio query, or the thrown fetch error),
the instance state, and fetch oracles for the embed page and the manifest
(the manifest oracle also receives the embed URL used as referer).  The
result is what the awaiting caller observes: none models the undefined value.
The catch block swallows every error thrown inside the routine and returns
undefined.  With no anchor the initial empty array is returned.  With one
anchor the code assigns the un-awaited promise of extract to sources and
returns it, so the caller observes the extract outcome, including its
rejection.  With two or more anchors the second iteration calls push on that
promise, which throws a TypeError that the catch turns into undefined, while
the first extract still runs and mutates the instance state. -/
def getEpisodeSources (listing : Except String (List String))
    (st : List VideoSource) (pageFetch : String → FetchResult)
    (manifestFetch : String → String → FetchResult) :
    Option (Except String (List VideoSource)) × List VideoSource :=
  match listing with
  | .error _ => (none, st)
  | .ok [] => (some (.ok []), st)
  | .ok [a] =>
    let r := extract st (pageFetch a) (manifestFetch a)
    (some r.1, r.2)
  | .ok (a :: _ :: _) =>
    let r := extract st (pageFetch a) (manifestFetch a)
    (none, r.2)

/-! ## Cache model

The Redis collaborator is modelled as an association list with first-match
lookup; setCache prepends (the new pair shadows any older one) and delCache
removes every pair with the key. -/

/-- Cache whose values are plain strings (the video-URL cache of the
single-backend route). -/
abbrev Cache := List (String × String)

/-- getCache. -/
def cGet (c : Cache) (k : String) : Option String :=
  (c.find? (fun p => p.1 == k)).map (·.2)

/-- setCache: the new pair shadows any earlier pair with the same key. -/
def cSet (c : Cache) (k v : String) : Cache := (k, v) :: c

/-- delCache. -/
def cDel (c : Cache) (k : String) : Cache := c.filter (fun p => !(p.1 == k))

/-- The JS cache-hit test if (cachedVideoUrl): a hit only when the stored
value is truthy, i.e. a nonempty string. -/
def cGetTruthy (c : Cache) (k : String) : Option String :=
  match cGet c k with
  | some v => if jsTruthy v then some v else none
  | none => none

/-! ## Single-backend route (src/index.js lines 70-126) -/

/-- The response rendered by the GET / handler, one constructor per exit
point of src/index.js lines 88-124. -/
inductive HomeResponse
  | cached (videoUrl : String)
  | video (videoUrl : String)
  | qualityNotAvailable (available : List String)
  | fallbackVideo (videoUrl : String)
  | fallbackQualityNotAvailable
  | bothFailed
deriving DecidableEq, Repr

/-- ep_id construction shared by the handlers (src/index.js line 84): the
anime id alone for episode 0, else anime_id-episode-N. -/
def epIdOf (animeId episode : String) : String :=
  if episode == "0" then animeId else animeId ++ "-episode-" ++ episode

/-- Cache key of the single-backend route (src/index.js line 85). -/
def homeKey (animeId episode quality server : String) : String :=
  server ++ "-" ++ epIdOf animeId episode ++ "-" ++ quality

/-- The GET / handler of src/index.js lines 70-126 (after parameter
validation), as a function of the cache, the request parameters, the primary
backend outcome and the fallback outcome.  primary is the observed value of
await servers[server].getEpisodeSources(ep_id): some list when it returned an
array, none when the try block then throws (a rejected promise, or the
TypeError raised by sources.find when the backend swallowed its error and
returned undefined).  fallback is the observed fallbackResponse.data: none
when fallbackHandler rejects or its payload has no sources array.  The third
component counts fallbackHandler invocations. -/
def homeHandler (c : Cache) (animeId episode quality server : String)
    (primary : Option (List VideoSource))
    (fallback : Option (List VideoSource)) :
    HomeResponse × Cache × Nat :=
  let cacheKey := homeKey animeId episode quality server
  match cGetTruthy c cacheKey with
  | some v => (.cached v, c, 0)
  | none =>
    match primary with
    | some sources =>
      match sources.find? (fun s => s.quality == quality) with
      | none => (.qualityNotAvailable (sources.map (·.quality)), c, 0)
      | some src => (.video src.url, cSet c cacheKey src.url, 0)
    | none =>
      match fallback with
      | none => (.bothFailed, c, 1)
      | some fsources =>
        match (fsources.find? (fun s => s.quality == quality)).map (·.url) with
        | some u =>
          if jsTruthy u then (.fallbackVideo u, cSet c cacheKey u, 1)
          else (.fallbackQualityNotAvailable, cDel c cacheKey, 1)
        | none => (.fallbackQualityNotAvailable, cDel c cacheKey, 1)

/-! ## All-sources fan-out (src/index.js lines 128-160 and
src/unnamed/part_000 lines 154-189)

Each backend slot of the fan-out is an oracle input: some list when
getEpisodeSources resolved to an array, none when awaiting it threw (which
also covers the TypeError raised by sources.length when the backend returned
undefined). -/

/-- One slot of the results object: the source array, or the error marker
object written by the handler. -/
inductive SlotResult
  | sources (l : List VideoSource)
  | errMarker (msg : String)
deriving DecidableEq, Repr

/-- JS truthiness of result.error on a slot: arrays have no error field;
marker objects are detected when their message is truthy. -/
def SlotResult.isErr : SlotResult → Bool
  | .sources _ => false
  | .errMarker m => jsTruthy m

/-- results[server] = sources.length ? sources : error marker, plus the
catch branch marker (both cited handlers use the same two messages). -/
def slotOf : Option (List VideoSource) → SlotResult
  | none => .errMarker "Failed to get sources"
  | some l => if l.length != 0 then .sources l else .errMarker "No sources found"

/-- Cache for the all-sources route; it stores the structured results value
(the JSON serialisation round-trip of part_000 is lossless for this shape). -/
abbrev SCache := List (String × List (String × SlotResult))

/-- getCache on the all-sources cache. -/
def sGet (c : SCache) (k : String) : Option (List (String × SlotResult)) :=
  (c.find? (fun p => p.1 == k)).map (·.2)

/-- setCache on the all-sources cache. -/
def sSet (c : SCache) (k : String) (v : List (String × SlotResult)) : SCache :=
  (k, v) :: c

/-- Response of a GET /sources handler. -/
inductive SourcesResponse
  | cached (results : List (String × SlotResult))
  | fresh (results : List (String × SlotResult))
deriving DecidableEq, Repr

/-- GET /sources of src/index.js lines 128-160: on a cache miss, build one
slot per registered backend and write the results to cache unconditionally
(no error check before setCache at line 158). -/
def sourcesHandlerV1 (c : SCache) (animeId episode : String)
    (backends : List (String × Option (List VideoSource))) :
    SourcesResponse × SCache :=
  let cacheKey := "sources-" ++ epIdOf animeId episode
  match sGet c cacheKey with
  | some v => (.cached v, c)
  | none =>
    let results := backends.map fun p => (p.1, slotOf p.2)
    (.fresh results, sSet c cacheKey results)

/-- GET /sources of src/unnamed/part_000 lines 154-189: same fan-out, but
the results are written to cache only when no slot carries an error marker
(lines 184-185). -/
def sourcesHandlerP0 (c : SCache) (animeId : String)
    (backends : List (String × Option (List VideoSource))) :
    SourcesResponse × SCache :=
  let cacheKey := "sources-" ++ animeId
  match sGet c cacheKey with
  | some v => (.cached v, c)
  | none =>
    let results := backends.map fun p => (p.1, slotOf p.2)
    if results.any (fun p => p.2.isErr) then (.fresh results, c)
    else (.fresh results, sSet c cacheKey results)

/-! ## Quality selection call sites -/

/-- A quality entry as built by src/unnamed/part_000 lines 105-108. -/
structure QualityEntry where
  quality : String
  url : String
deriving DecidableEq, Repr

/-- The proxy wrapping of part_000 lines 105-108. -/
def proxyUrl (u : String) : String :=
  "https://node-proxy.5yg3y1.easypanel.host/proxy/m3u8?url=" ++ u

/-- part_000 lines 105-108: map each source to its quality and proxied url. -/
def toQualities (sources : List VideoSource) : List QualityEntry :=
  sources.map fun s => { quality := s.quality, url := proxyUrl s.url }

/-- JS Array.prototype.findIndex, as an Option (JS returns -1 for absent). -/
def findIndexJs (p : α → Bool) : List α → Option Nat
  | [] => none
  | a :: l => if p a then some 0 else (findIndexJs p l).map (· + 1)

/-- JS Array.prototype.splice(i, 1): remove the element at index i. -/
def spliceOne : Nat → List α → List α
  | _, [] => []
  | 0, _ :: l => l
  | n + 1, a :: l => a :: spliceOne n l

/-- Placeholder removal of part_000 lines 110-111: find the first entry whose
quality is backup or default and remove it; no change when absent. -/
def removePlaceholder (qs : List QualityEntry) : List QualityEntry :=
  match findIndexJs (fun q => q.quality == "backup" || q.quality == "default") qs with
  | some i => spliceOne i qs
  | none => qs

/-- The server-side best pick of part_000 lines 110-113: after placeholder
removal, qualities[0].url (none models the TypeError when the list is
empty). -/
def p0DefaultUrl (sources : List VideoSource) : Option String :=
  ((removePlaceholder (toQualities sources)).head?).map (·.url)

/-- A player-view source object (view script in src/lib/streamWish.js,
lines 146-151 of the concatenated file): src is the entry url, size is the
quality with the first p removed, backup is quality.backup coerced to null
(the quality objects produced by the server carry no backup field, so this
is always null for them; the field is kept so the removal loop can be stated
for arbitrary arrays). -/
structure ViewSource where
  src : String
  size : String
  backup : Option String
deriving DecidableEq, Repr

/-- The view mapping qualities.map(quality => ...): entries built from
QualityEntry values always get backup = none. -/
def toViewSources (qs : List QualityEntry) : List ViewSource :=
  qs.map fun q => { src := q.url, size := jsReplaceFirst "p" "" q.quality, backup := none }

/-- One iteration body of the view removal loop (view lines 153-160): when
the visited source has a truthy backup, remove the first entry whose size
equals it.  The disjunct source.size === source.default of the original
compares with an undefined field and is always false, so it is dropped. -/
def viewRemoveStep (arr : List ViewSource) (source : ViewSource) : List ViewSource :=
  match source.backup with
  | none => arr
  | some b =>
    match findIndexJs (fun s => s.size == b) arr with
    | some i => spliceOne i arr
    | none => arr

/-- JS Array.prototype.forEach with in-loop splicing: visit indices 0 up to
the initial length minus one, reading the current array state at each index
and skipping indices beyond the current length. -/
def viewRemoveLoop : Nat → Nat → List ViewSource → List ViewSource
  | 0, _, arr => arr
  | n + 1, k, arr =>
    match arr[k]? with
    | none => viewRemoveLoop n (k + 1) arr
    | some s => viewRemoveLoop n (k + 1) (viewRemoveStep arr s)

/-- The whole removal pass of the view (lines 153-160). -/
def viewRemove (arr : List ViewSource) : List ViewSource :=
  viewRemoveLoop arr.length 0 arr

/-- The view default pick (line 162): the first source whose size is 1080,
else sources[0] (none when the array is empty). -/
def viewDefaultSource (sources : List ViewSource) : Option ViewSource :=
  match sources.find? (fun s => s.size == "1080") with
  | some s => some s
  | none => sources.head?

/-- Modelled from the spec: begins with the header marker.  The spec and
claim C7 speak of a body that begins with the top-level header marker; the
code has no such primitive (it uses includes), so the prefix test is stated
here from the words of the spec for comparison. -/
def beginsWith (p s : String) : Bool := p.data.isPrefixOf s.data

/-- Modelled from the spec: the directory of a URL, the portion up to and
including the final slash, not including the final path segment (claim C5
words).  Used only to compare the code against the claim. -/
def dirOfUrl (u : String) : String :=
  String.mk ((u.data.reverse.dropWhile (fun c => c != '/')).reverse)

/-! ## Helper lemmas -/

lemma cGet_cSet_self (c : Cache) (k v : String) : cGet (cSet c k v) k = some v := by
  simp [cGet, cSet, List.find?_cons]

lemma cGet_cDel_self (c : Cache) (k : String) : cGet (cDel c k) k = none := by
  induction c with
  | nil => rfl
  | cons a c ih =>
    cases h : (a.1 == k) with
    | true => simp [cGet, cDel, List.filter_cons, h] at ih ⊢
    | false => simp [cGet, cDel, List.filter_cons, List.find?_cons, h] at ih ⊢

lemma cGetTruthy_cDel_self (c : Cache) (k : String) : cGetTruthy (cDel c k) k = none := by
  simp [cGetTruthy, cGet_cDel_self]

lemma slotOf_some_of_ne_nil (l : List VideoSource) (h : l ≠ []) :
    slotOf (some l) = .sources l := by
  cases l with
  | nil => exact absurd rfl h
  | cons a t => simp [slotOf]

lemma isPrefixOf_self (l : List Char) : l.isPrefixOf l = true :=
  List.isPrefixOf_iff_prefix.mpr (List.prefix_refl l)

lemma findSubIdx_append_self (sep d : List Char) (hsep : sep ≠ [])
    (h : ∀ j, j < d.length → sep.isPrefixOf ((d ++ sep).drop j) = false) :
    findSubIdx sep (d ++ sep) = some d.length := by
  induction d with
  | nil =>
    cases sep with
    | nil => exact absurd rfl hsep
    | cons c cs => simp [findSubIdx, isPrefixOf_self]
  | cons a d ih =>
    have h0 : sep.isPrefixOf (a :: (d ++ sep)) = false := by
      have := h 0 (by simp)
      simpa using this
    have ih' : findSubIdx sep (d ++ sep) = some d.length := by
      apply ih
      intro j hj
      have := h (j + 1) (by simpa using Nat.succ_lt_succ hj)
      simpa using this
    simp [findSubIdx, h0, ih']

lemma findSubIdx_nil_of_ne_nil (sep : List Char) (hsep : sep ≠ []) :
    findSubIdx sep [] = none := by
  cases sep with
  | nil => exact absurd rfl hsep
  | cons c cs => simp [findSubIdx]

lemma splitHead_eq_take (sep s : String) (hsep : sep.data ≠ []) (i : Nat)
    (hidx : findSubIdx sep.data s.data = some i) :
    splitHead sep s = String.mk (s.data.take i) := by
  have hs : s.data ≠ [] := by
    intro hnil
    rw [hnil, findSubIdx_nil_of_ne_nil sep.data hsep] at hidx
    cases hidx
  obtain ⟨c, cs, hcs⟩ := List.exists_cons_of_ne_nil hs
  unfold splitHead jsSplit
  rw [hcs] at hidx ⊢
  rw [List.length_cons]
  simp [jsSplitAux, hidx]

lemma length_filterMap_eq_length_filter (f : α → Option β) (p : α → Bool)
    (hfp : ∀ a, (f a).isSome = p a) (l : List α) :
    (l.filterMap f).length = (l.filter p).length := by
  induction l with
  | nil => rfl
  | cons a l ih =>
    have ha := hfp a
    cases hfa : f a with
    | none =>
      rw [hfa] at ha
      simp [List.filterMap_cons, hfa, List.filter_cons, ← ha, ih]
    | some b =>
      rw [hfa] at ha
      simp [List.filterMap_cons, hfa, List.filter_cons, ← ha, ih]

lemma viewRemoveStep_of_no_backup (arr : List ViewSource) (s : ViewSource)
    (h : s.backup = none) : viewRemoveStep arr s = arr := by
  simp [viewRemoveStep, h]

lemma viewRemoveLoop_of_no_backup :
    ∀ (n k : Nat) (arr : List ViewSource),
      (∀ s ∈ arr, s.backup = none) → viewRemoveLoop n k arr = arr
  | 0, _, _, _ => rfl
  | n + 1, k, arr, h => by
    unfold viewRemoveLoop
    cases harr : arr[k]? with
    | none => exact viewRemoveLoop_of_no_backup n (k + 1) arr h
    | some s =>
      have hs : s ∈ arr := by
        rw [List.getElem?_eq_some] at harr
        obtain ⟨hi, rfl⟩ := harr
        exact List.getElem_mem hi
      dsimp only
      rw [viewRemoveStep_of_no_backup arr s (h s hs)]
      exact viewRemoveLoop_of_no_backup n (k + 1) arr h

lemma toViewSources_backup_none (qs : List QualityEntry) :
    ∀ s ∈ toViewSources qs, s.backup = none := by
  intro s hs
  rw [toViewSources, List.mem_map] at hs
  obtain ⟨q, _, rfl⟩ := hs
  rfl

/-! ## Claim theorems -/

/-- C6: for every request whose quality string is absent from the resolved
source list, the handler responds QualityNotAvailable carrying exactly the
list of quality strings of the resolved sources, writes nothing to the
cache, and never invokes the fallback resolver (invocation count 0,
independently of the fallback oracle). -/
theorem C6_quality_not_available (c : Cache) (animeId episode quality server : String)
    (sources : List VideoSource) (fallback : Option (List VideoSource))
    (hmiss : cGetTruthy c (homeKey animeId episode quality server) = none)
    (habsent : sources.find? (fun s => s.quality == quality) = none) :
    homeHandler c animeId episode quality server (some sources) fallback
      = (.qualityNotAvailable (sources.map (·.quality)), c, 0) := by
  simp [homeHandler, hmiss, habsent]

theorem C6_witness :
    homeHandler [] "naruto" "1" "4k" "gogocdn"
        (some [⟨"u1", "1080", true⟩, ⟨"u2", "720", true⟩]) (some [])
      = (.qualityNotAvailable ["1080", "720"], [], 0) :=
  C6_quality_not_available [] "naruto" "1" "4k" "gogocdn"
    [⟨"u1", "1080", true⟩, ⟨"u2", "720", true⟩] (some [])
    (by decide) (by decide)

/-- C1 counterexample: the primary fails and the fallback result contains a
source for the requested quality 720, but that source's URL is the empty
string; the code tests truthiness of the URL, so instead of writing the URL
to cache and returning it, the handler deletes the cache key and renders the
fallback-quality-not-available error.  The claim as stated (any source for
the requested quality gets cached and returned) is therefore false. -/
theorem C1_counterexample :
    homeHandler [] "a" "1" "720" "gogocdn" none (some [⟨"", "720", false⟩])
        = (.fallbackQualityNotAvailable, [], 1) ∧
    ([⟨"", "720", false⟩] : List VideoSource).find? (fun s => s.quality == "720")
        = some ⟨"", "720", false⟩ := by
  decide

/-- C1 (amended): for every single-backend request whose primary resolve
fails (which requires a truthy cache miss on the key), the fallback resolver
is invoked exactly once; when the fallback result contains a source for the
requested quality with a truthy (nonempty) URL, that URL is written to cache
under the primary's key and returned; when the fallback yields no source for
that quality — or the found source's URL is empty — the key is deleted; and
whenever primary and fallback both fail, no usable cache entry remains for
the key. -/
theorem C1_fallback_cache_contract (c : Cache) (animeId episode quality server key : String)
    (fallback : Option (List VideoSource))
    (hkey : key = homeKey animeId episode quality server)
    (hmiss : cGetTruthy c key = none) :
    (homeHandler c animeId episode quality server none fallback).2.2 = 1 ∧
    (∀ fsources u, fallback = some fsources →
      (fsources.find? (fun s => s.quality == quality)).map (·.url) = some u →
      jsTruthy u = true →
      (homeHandler c animeId episode quality server none fallback).1 = .fallbackVideo u ∧
      cGet (homeHandler c animeId episode quality server none fallback).2.1 key = some u) ∧
    (∀ fsources u, fallback = some fsources →
      (fsources.find? (fun s => s.quality == quality)).map (·.url) = some u →
      jsTruthy u = false →
      (homeHandler c animeId episode quality server none fallback).1
          = .fallbackQualityNotAvailable ∧
      cGet (homeHandler c animeId episode quality server none fallback).2.1 key = none) ∧
    (∀ fsources, fallback = some fsources →
      (fsources.find? (fun s => s.quality == quality)).map (·.url) = none →
      (homeHandler c animeId episode quality server none fallback).1
          = .fallbackQualityNotAvailable ∧
      cGet (homeHandler c animeId episode quality server none fallback).2.1 key = none) ∧
    (fallback = none →
      (homeHandler c animeId episode quality server none fallback).1 = .bothFailed ∧
      cGetTruthy (homeHandler c animeId episode quality server none fallback).2.1 key
          = none) := by
  subst hkey
  refine ⟨?_, ?_, ?_, ?_, ?_⟩
  · cases fallback with
    | none => simp [homeHandler, hmiss]
    | some fsources =>
      cases hf : (fsources.find? (fun s => s.quality == quality)).map (·.url) with
      | none => simp [homeHandler, hmiss, hf]
      | some u =>
        cases hu : jsTruthy u with
        | true => simp [homeHandler, hmiss, hf, hu]
        | false => simp [homeHandler, hmiss, hf, hu]
  · rintro fsources u rfl hf hu
    constructor
    · simp [homeHandler, hmiss, hf, hu]
    · simp [homeHandler, hmiss, hf, hu, cGet_cSet_self]
  · rintro fsources u rfl hf hu
    constructor
    · simp [homeHandler, hmiss, hf, hu]
    · simp [homeHandler, hmiss, hf, hu, cGet_cDel_self]
  · rintro fsources rfl hf
    constructor
    · simp [homeHandler, hmiss, hf]
    · simp [homeHandler, hmiss, hf, cGet_cDel_self]
  · rintro rfl
    constructor
    · simp [homeHandler, hmiss]
    · simp [homeHandler, hmiss]

theorem C1_witness :
    (homeHandler [] "a" "1" "720" "gogocdn" none
        (some [⟨"http://f/v.m3u8", "720", false⟩])).2.2 = 1 ∧
    cGet (homeHandler [] "a" "1" "720" "gogocdn" none
        (some [⟨"http://f/v.m3u8", "720", false⟩])).2.1 "gogocdn-a-episode-1-720"
      = some "http://f/v.m3u8" := by
  have h := C1_fallback_cache_contract [] "a" "1" "720" "gogocdn"
    "gogocdn-a-episode-1-720" (some [⟨"http://f/v.m3u8", "720", false⟩])
    (by decide) (by decide)
  exact ⟨h.1, (h.2.1 [⟨"http://f/v.m3u8", "720", false⟩] "http://f/v.m3u8"
    rfl (by decide) (by decide)).2⟩

/-- C2 counterexample: in the GET /sources handler of src/index.js lines
128-160, a fan-out in which gogocdn succeeds and streamwish fails produces
the correct per-slot results, but the handler still writes the combined
results to the all-sources cache key (setCache at line 158 is
unconditional), contradicting the claim that no cache entry is written when
a per-backend error is present. -/
theorem C2_counterexample :
    sourcesHandlerV1 [] "a" "1"
        [("gogocdn", some [⟨"u", "1080", true⟩]), ("streamwish", none)]
      = (.fresh [("gogocdn", .sources [⟨"u", "1080", true⟩]),
                 ("streamwish", .errMarker "Failed to get sources")],
         [("sources-a-episode-1",
           [("gogocdn", .sources [⟨"u", "1080", true⟩]),
            ("streamwish", .errMarker "Failed to get sources")])]) ∧
    sGet [("sources-a-episode-1",
           [("gogocdn", SlotResult.sources [⟨"u", "1080", true⟩]),
            ("streamwish", SlotResult.errMarker "Failed to get sources")])]
        "sources-a-episode-1" ≠ none := by
  decide

/-- C2 (amended): in the part_000 GET /sources handler, on a cache miss the
response maps every backend to its own slot — a successful backend with a
nonempty list to that source list, a failed backend to the error marker,
independently of the other backends — and when any slot carries an error
marker the cache is left untouched.  The index.js revision at lines 128-160
builds the same slots but writes the results to cache unconditionally (see
the counterexample). -/
theorem C2_fanout_guard (c : SCache) (animeId : String)
    (backends : List (String × Option (List VideoSource)))
    (hmiss : sGet c ("sources-" ++ animeId) = none) :
    (sourcesHandlerP0 c animeId backends).1
        = .fresh (backends.map fun p => (p.1, slotOf p.2)) ∧
    (∀ n l, (n, some l) ∈ backends → l ≠ [] →
      (n, SlotResult.sources l) ∈ backends.map (fun p => (p.1, slotOf p.2))) ∧
    (∀ n, (n, (none : Option (List VideoSource))) ∈ backends →
      (n, SlotResult.errMarker "Failed to get sources")
        ∈ backends.map (fun p => (p.1, slotOf p.2))) ∧
    ((backends.map (fun p => (p.1, slotOf p.2))).any (fun p => p.2.isErr) = true →
      (sourcesHandlerP0 c animeId backends).2 = c) := by
  refine ⟨?_, ?_, ?_, ?_⟩
  · cases herr : (backends.map (fun p => (p.1, slotOf p.2))).any (fun p => p.2.isErr) with
    | true => simp [sourcesHandlerP0, hmiss, herr]
    | false => simp [sourcesHandlerP0, hmiss, herr]
  · intro n l hmem hne
    exact List.mem_map.mpr ⟨(n, some l), hmem, by rw [slotOf_some_of_ne_nil l hne]⟩
  · intro n hmem
    exact List.mem_map.mpr ⟨(n, none), hmem, rfl⟩
  · intro herr
    simp [sourcesHandlerP0, hmiss, herr]

theorem C2_witness :
    (sourcesHandlerP0 [] "a"
        [("gogocdn", some [⟨"u", "1080", true⟩]), ("streamwish", none)]).1
      = .fresh [("gogocdn", .sources [⟨"u", "1080", true⟩]),
                ("streamwish", .errMarker "Failed to get sources")] ∧
    (sourcesHandlerP0 [] "a"
        [("gogocdn", some [⟨"u", "1080", true⟩]), ("streamwish", none)]).2 = [] := by
  have h := C2_fanout_guard [] "a"
    [("gogocdn", some [⟨"u", "1080", true⟩]), ("streamwish", none)] (by decide)
  exact ⟨h.1, h.2.2.2 (by decide)⟩

/-- C3 counterexample: on the extraction result
[(A, default), (B, backup), (C, 720)] the player view's removal step removes
nothing — the view-source objects built from the quality entries carry no
backup field, so the splice branch never fires — and all three entries
survive, including the placeholder A.  The two removal call sites therefore
do not apply one deterministic rule producing [(B), (C)] or [(C)]: the
part_000 site yields [(B), (C)] while the view site yields all three. -/
theorem C3_counterexample :
    (viewRemove (toViewSources (toQualities
        [⟨"A", "default", true⟩, ⟨"B", "backup", true⟩, ⟨"C", "720", true⟩]))).map (·.src)
      = [proxyUrl "A", proxyUrl "B", proxyUrl "C"] ∧
    (viewRemove (toViewSources (toQualities
        [⟨"A", "default", true⟩, ⟨"B", "backup", true⟩, ⟨"C", "720", true⟩]))).length = 3 := by
  decide

/-- C3 (amended): the two placeholder-removal call sites follow different
rules.  The part_000 server-side removal deletes exactly the first entry
tagged backup or default, so [(A, default), (B, backup), (C, 720)] always
yields [(B, backup), (C, 720)]; the player-view removal is the identity on
every source array built from server quality entries, because those entries
carry no backup field. -/
theorem C3_placeholder_rules :
    (∀ (ua ub uc : String) (ia ib ic : Bool),
      removePlaceholder (toQualities
          [⟨ua, "default", ia⟩, ⟨ub, "backup", ib⟩, ⟨uc, "720", ic⟩])
        = [⟨"backup", proxyUrl ub⟩, ⟨"720", proxyUrl uc⟩]) ∧
    (∀ qs : List QualityEntry, viewRemove (toViewSources qs) = toViewSources qs) := by
  constructor
  · intro ua ub uc ia ib ic
    rfl
  · intro qs
    exact viewRemoveLoop_of_no_backup (toViewSources qs).length 0 (toViewSources qs)
      (toViewSources_backup_none qs)

/-- C4 counterexample: a manifest with one malformed variant segment — an
attribute line and no path line — whose attribute text contains m3u8.  The
claim says such a segment contributes no entry; the code appends one entry
whose url ends in the text undefined (the JS coercion of the missing second
line) and whose isM3U8 flag is false. -/
theorem C4_counterexample :
    expandManifest "https://h/master.m3u8"
        "#EXTM3U\n#EXT-X-STREAM-INF:RESOLUTION=1920x1080,URI=audio.m3u8"
      = [⟨"https://h/undefined", "1080", false⟩] := by
  decide

/-- C4 (amended): for every manifest body containing the EXTM3U marker,
expansion appends exactly one entry per split segment whose text contains
m3u8 — not one per well-formed attribute-line/path-line pair — and each
appended entry's isM3U8 flag equals the test whether its resolved url
contains .m3u8 (true for every variant whose path line references a .m3u8
file, but not for the degenerate entries of the counterexample). -/
theorem C4_expansion_count (link body : String)
    (hdr : containsSub "EXTM3U" body = true) :
    (expandManifest link body).length
      = ((jsSplit "#EXT-X-STREAM-INF:" body).filter
          (fun v => containsSub "m3u8" v)).length ∧
    ∀ e ∈ expandManifest link body, e.isM3U8 = containsSub ".m3u8" e.url := by
  constructor
  · rw [expandManifest, if_pos hdr]
    apply length_filterMap_eq_length_filter
    intro a
    cases h : containsSub "m3u8" a with
    | true => simp [h]
    | false => simp [h]
  · intro e he
    rw [expandManifest, if_pos hdr, List.mem_filterMap] at he
    obtain ⟨seg, hseg, hf⟩ := he
    split at hf
    · have he2 := Option.some.inj hf
      subst he2
      rfl
    · exact Option.noConfusion hf

theorem C4_witness :
    containsSub "EXTM3U"
        "#EXTM3U\n#EXT-X-STREAM-INF:RESOLUTION=842x480\n480/index.m3u8\n#EXT-X-STREAM-INF:RESOLUTION=1280x720\n720/index.m3u8\n"
      = true ∧
    ((expandManifest "https://h/v/master.m3u8"
        "#EXTM3U\n#EXT-X-STREAM-INF:RESOLUTION=842x480\n480/index.m3u8\n#EXT-X-STREAM-INF:RESOLUTION=1280x720\n720/index.m3u8\n").length
      = ((jsSplit "#EXT-X-STREAM-INF:"
          "#EXTM3U\n#EXT-X-STREAM-INF:RESOLUTION=842x480\n480/index.m3u8\n#EXT-X-STREAM-INF:RESOLUTION=1280x720\n720/index.m3u8\n").filter
            (fun v => containsSub "m3u8" v)).length ∧
     ∀ e ∈ expandManifest "https://h/v/master.m3u8"
        "#EXTM3U\n#EXT-X-STREAM-INF:RESOLUTION=842x480\n480/index.m3u8\n#EXT-X-STREAM-INF:RESOLUTION=1280x720\n720/index.m3u8\n",
       e.isM3U8 = containsSub ".m3u8" e.url) :=
  ⟨by decide, C4_expansion_count "https://h/v/master.m3u8"
    "#EXTM3U\n#EXT-X-STREAM-INF:RESOLUTION=842x480\n480/index.m3u8\n#EXT-X-STREAM-INF:RESOLUTION=1280x720\n720/index.m3u8\n"
    (by decide)⟩

/-- C5 counterexample: a manifest whose filename is playlist.m3u8.  The code
computes the url prefix as the manifest URL split on the literal
master.m3u8, which leaves the whole URL (including the filename), so the
variant path is appended to the full manifest URL instead of its directory
as the claim requires. -/
theorem C5_counterexample :
    expandManifest "https://h/a/playlist.m3u8"
        "#EXTM3U\n#EXT-X-STREAM-INF:RESOLUTION=640x360\n360.m3u8"
      = [⟨"https://h/a/playlist.m3u8360.m3u8", "360", true⟩] ∧
    dirOfUrl "https://h/a/playlist.m3u8" ++ "360.m3u8" = "https://h/a/360.m3u8" ∧
    ("https://h/a/playlist.m3u8360.m3u8" : String) ≠ "https://h/a/360.m3u8" := by
  decide

/-- C5 (amended): the prefix used for variant resolution is the portion of
the manifest URL before the first occurrence of the literal master.m3u8 (the
whole URL when that literal is absent); hence every expanded entry's url is
that prefix followed by the second line of its segment, which matches the
directory rule exactly when the manifest URL is some d followed by
master.m3u8 with no earlier occurrence of that literal. -/
theorem C5_prefix_rule (d : String)
    (h : ∀ j, j < d.data.length →
      ("master.m3u8".data).isPrefixOf ((d.data ++ ("master.m3u8" : String).data).drop j)
        = false) :
    splitHead "master.m3u8" (d ++ "master.m3u8") = d ∧
    ∀ body e, e ∈ expandManifest (d ++ "master.m3u8") body →
      ∃ seg ∈ jsSplit "#EXT-X-STREAM-INF:" body,
        e.url = d ++ jsGet1 (jsSplit "\n" seg) := by
  have hsep : ("master.m3u8" : String).data ≠ [] := by decide
  have hidx : findSubIdx ("master.m3u8" : String).data ((d ++ "master.m3u8").data)
      = some d.data.length := by
    rw [String.data_append]
    exact findSubIdx_append_self _ _ hsep h
  have h1 : splitHead "master.m3u8" (d ++ "master.m3u8") = d := by
    rw [splitHead_eq_take _ _ hsep _ hidx, String.data_append, List.take_left]
  refine ⟨h1, ?_⟩
  intro body e he
  rw [expandManifest] at he
  by_cases hdr : containsSub "EXTM3U" body = true
  · rw [if_pos hdr, List.mem_filterMap] at he
    obtain ⟨seg, hseg, hf⟩ := he
    refine ⟨seg, hseg, ?_⟩
    split at hf
    · have he2 := Option.some.inj hf
      subst he2
      simpa using congrArg (· ++ jsGet1 (jsSplit "\n" seg)) h1
    · exact Option.noConfusion hf
  · rw [if_neg hdr] at he
    cases he

theorem C5_witness :
    splitHead "master.m3u8" ("https://h/v/" ++ "master.m3u8") = "https://h/v/" :=
  (C5_prefix_rule "https://h/v/" (by decide)).1

/-- C7 counterexample: a fetched body that does not begin with the header
marker but contains it later.  The claim says such a body yields an empty
expansion; the code tests containment (includes at line 56), not a prefix,
and expands one variant. -/
theorem C7_counterexample :
    beginsWith "#EXTM3U"
        "x#EXTM3U\n#EXT-X-STREAM-INF:RESOLUTION=640x360\nv360.m3u8" = false ∧
    expandManifest "https://h/master.m3u8"
        "x#EXTM3U\n#EXT-X-STREAM-INF:RESOLUTION=640x360\nv360.m3u8"
      = [⟨"https://h/v360.m3u8", "360", true⟩] := by
  decide

/-- C7 (amended): for every fetched manifest body that does not contain the
header marker EXTM3U anywhere, expansion yields the empty sequence and no
error (the embedding is a total function, as the JS string operations cannot
throw here); expansion of variant entries occurs only for bodies containing
the marker. -/
theorem C7_header_guard (link body : String) :
    (containsSub "EXTM3U" body = false → expandManifest link body = []) ∧
    (expandManifest link body ≠ [] → containsSub "EXTM3U" body = true) := by
  constructor
  · intro h
    simp [expandManifest, h]
  · intro hne
    cases hb : containsSub "EXTM3U" body with
    | true => rfl
    | false =>
      rw [expandManifest, if_neg (by simp [hb])] at hne
      exact absurd rfl hne

theorem C7_witness :
    expandManifest "https://h/master.m3u8" "hello world" = [] :=
  (C7_header_guard "https://h/master.m3u8" "hello world").1 (by decide)

/-- C8 counterexample: the part_000 server-side best pick (qualities[0].url
after placeholder removal, lines 110-113) on sources tagged 720 then 1080:
an entry tagged 1080 exists but the first entry (720) is selected, so the
1080-preference rule does not hold at this call site. -/
theorem C8_counterexample :
    (removePlaceholder (toQualities
        [⟨"http://a", "720", true⟩, ⟨"http://b", "1080", true⟩])).head?
      = some ⟨"720", proxyUrl "http://a"⟩ ∧
    (⟨"1080", proxyUrl "http://b"⟩ : QualityEntry) ∈ removePlaceholder (toQualities
        [⟨"http://a", "720", true⟩, ⟨"http://b", "1080", true⟩]) ∧
    p0DefaultUrl [⟨"http://a", "720", true⟩, ⟨"http://b", "1080", true⟩]
      = some (proxyUrl "http://a") ∧
    proxyUrl "http://a" ≠ proxyUrl "http://b" := by
  decide

/-- C8 (amended): only the player-view call site implements the best-default
preference: for every source array, when an entry with size 1080 exists the
view picks an entry with size 1080, and otherwise it picks the first entry;
the part_000 server-side call site always takes the first entry after
placeholder removal, with no 1080 preference (see the counterexample). -/
theorem C8_default_selection (sources : List ViewSource) :
    ((∃ t ∈ sources, t.size = "1080") →
      ∃ s, viewDefaultSource sources = some s ∧ s.size = "1080") ∧
    ((∀ t ∈ sources, t.size ≠ "1080") →
      viewDefaultSource sources = sources.head?) := by
  constructor
  · rintro ⟨t, ht, hsize⟩
    have hsome : (sources.find? (fun s => s.size == "1080")).isSome :=
      List.find?_isSome.mpr ⟨t, ht, by simp [hsize]⟩
    obtain ⟨s, hs⟩ := Option.isSome_iff_exists.mp hsome
    refine ⟨s, by simp [viewDefaultSource, hs], ?_⟩
    have := List.find?_some hs
    simpa using this
  · intro hall
    have hnone : sources.find? (fun s => s.size == "1080") = none :=
      List.find?_eq_none.mpr (fun x hx => by simpa using hall x hx)
    simp [viewDefaultSource, hnone]

theorem C8_witness :
    ∃ s, viewDefaultSource [⟨"u", "720", none⟩, ⟨"v", "1080", none⟩] = some s ∧
      s.size = "1080" :=
  (C8_default_selection [⟨"u", "720", none⟩, ⟨"v", "1080", none⟩]).1
    ⟨⟨"v", "1080", none⟩, by decide, rfl⟩

/-- C9 counterexample: two successive extract calls on one StreamWish
instance.  The first call (page with one file reference a) leaves the entry
for a in this.sources; the second call (page with one file reference b)
returns an array containing both entries, so the second call's result does
contain an entry produced by the first call, contradicting the claim that
the engine holds no shared mutable in-process state beyond the registry and
the cache. -/
theorem C9_counterexample :
    (extract [] (.ok "file: \"http://a/v1.mp4\"") (fun _ => FetchResult.err "unused")).1
      = .ok [⟨"http://a/v1.mp4", "default", false⟩] ∧
    (extract (extract [] (.ok "file: \"http://a/v1.mp4\"")
          (fun _ => FetchResult.err "unused")).2
        (.ok "file: \"http://b/v2.mp4\"") (fun _ => FetchResult.err "unused")).1
      = .ok [⟨"http://a/v1.mp4", "default", false⟩,
             ⟨"http://b/v2.mp4", "default", false⟩] :=
  ⟨rfl, rfl⟩

/-- C9 (amended): the StreamWish instance field this.sources is shared
mutable state across calls: every extract call leaves the previous state as
a prefix of the new state (it only appends), and a successful result is the
whole accumulated state, so entries from earlier calls reappear in later
results. -/
theorem C9_state_accumulation (st : List VideoSource) (pageFetch : FetchResult)
    (manifestFetch : String → FetchResult) :
    st <+: (extract st pageFetch manifestFetch).2 ∧
    ∀ l, (extract st pageFetch manifestFetch).1 = .ok l →
      l = (extract st pageFetch manifestFetch).2 := by
  unfold extract
  cases pageFetch with
  | err m => exact ⟨List.prefix_refl st, fun l h => by cases h⟩
  | ok data =>
    dsimp only
    cases hscan : scanFileRefs data with
    | nil => exact ⟨List.prefix_refl st, fun l h => by cases h⟩
    | cons a as =>
      dsimp only
      cases hfind : (st ++ processLinks false (a :: as)).find? (fun s => s.isM3U8) with
      | none =>
        refine ⟨List.prefix_append st _, fun l h => ?_⟩
        exact (Except.ok.inj h).symm
      | some src =>
        dsimp only
        cases manifestFetch src.url with
        | err m => exact ⟨List.prefix_append st _, fun l h => by cases h⟩
        | ok body =>
          dsimp only
          refine ⟨?_, fun l h => (Except.ok.inj h).symm⟩
          rw [List.append_assoc]
          exact List.prefix_append st _

theorem C9_witness :
    ([⟨"http://a/v1.mp4", "default", false⟩] : List VideoSource)
        <+: (extract [⟨"http://a/v1.mp4", "default", false⟩]
              (.ok "file: \"http://b/v2.mp4\"") (fun _ => FetchResult.err "u")).2 ∧
    [⟨"http://a/v1.mp4", "default", false⟩, ⟨"http://b/v2.mp4", "default", false⟩]
        = (extract [⟨"http://a/v1.mp4", "default", false⟩]
              (.ok "file: \"http://b/v2.mp4\"") (fun _ => FetchResult.err "u")).2 := by
  have h := C9_state_accumulation [⟨"http://a/v1.mp4", "default", false⟩]
    (.ok "file: \"http://b/v2.mp4\"") (fun _ => FetchResult.err "u")
  exact ⟨h.1, h.2 [⟨"http://a/v1.mp4", "default", false⟩,
    ⟨"http://b/v2.mp4", "default", false⟩] rfl⟩

/-- C10 counterexample: a listing-page fetch failure.  The claim says the
failure is reported to the caller as an UpstreamFetchError; the code catches
every error inside getEpisodeSources and returns undefined (none), a missing
result with no error information. -/
theorem C10_counterexample :
    getEpisodeSources (Except.error "ETIMEDOUT") []
        (fun u => FetchResult.err u) (fun u v => FetchResult.err (u ++ v))
      = (none, []) :=
  rfl

/-- C10 (amended): inside extract the failure taxonomy is real — a page with
no parsable file reference raises the error No video links found, and a page
fetch failure is rethrown — and with exactly one embed anchor that outcome
reaches the caller of getEpisodeSources; but a listing fetch failure is
caught by getEpisodeSources and swallowed into the undefined result (none),
so upstream failures of the listing page are not reported to the caller. -/
theorem C10_error_swallowing (st : List VideoSource)
    (pageFetch : String → FetchResult)
    (manifestFetch2 : String → String → FetchResult)
    (manifestFetch : String → FetchResult) (page m : String) :
    (scanFileRefs page = [] →
      extract st (.ok page) manifestFetch = (.error "No video links found", st)) ∧
    (extract st (.err m) manifestFetch = (.error m, st)) ∧
    (getEpisodeSources (.error m) st pageFetch manifestFetch2 = (none, st)) ∧
    (∀ a, getEpisodeSources (.ok [a]) st pageFetch manifestFetch2
      = (some (extract st (pageFetch a) (manifestFetch2 a)).1,
         (extract st (pageFetch a) (manifestFetch2 a)).2)) := by
  refine ⟨?_, rfl, rfl, fun a => rfl⟩
  intro h
  unfold extract
  dsimp only
  rw [h]

theorem C10_witness :
    scanFileRefs "<html>no refs here</html>" = [] ∧
    extract [] (.ok "<html>no refs here</html>") (fun _ => FetchResult.err "u")
      = (.error "No video links found", []) :=
  ⟨by decide,
   (C10_error_swallowing [] (fun u => FetchResult.err u)
      (fun u v => FetchResult.err (u ++ v)) (fun _ => FetchResult.err "u")
      "<html>no refs here</html>" "m").1 (by decide)⟩

end NekoNode
